import Mathlib

/-!
Verification of the `apikeyhelper` credential manager
(`backend/helpers/apikeyhelper/apikeyhelper.go`).

The development shallowly embeds the Go source: the persisted `ApiKey`
record, the persistence collaborator (`dal`) as a pure store of rows, the
HMAC-SHA256 digest (`DigestToken`), and the lifecycle operations
`Create`, `CreateForPlugin`, `Put` (rotation), `Delete`, `DeleteForPlugin`,
`getApiKeyById` and `GetApiKey`.  Randomness (`utils.RandLetterBytes`) and
the Go regexp compiler are external collaborators and enter as explicit
parameters; time enters as an explicit `now` value.
-/

set_option maxRecDepth 1000000

namespace ApiKeyHelper

/-! ### HMAC-SHA256 and hex encoding

`DigestToken` in the source is `hmac.New(sha256.New, secret)` over the
token bytes, printed with `%x`.  We embed SHA-256 (FIPS 180-4) and HMAC
(RFC 2104) over byte lists, with 32-bit words as `Nat` reduced `% 2^32`.
-/

/-- Truncate to a 32-bit word. -/
def w32 (n : Nat) : Nat := n % 4294967296

/-- Right rotation of a 32-bit word by `n` places. -/
def rotr32 (n x : Nat) : Nat := (x >>> n) ||| (w32 (x <<< (32 - n)))

def smallSigma0 (x : Nat) : Nat := (rotr32 7 x) ^^^ (rotr32 18 x) ^^^ (x >>> 3)

def smallSigma1 (x : Nat) : Nat := (rotr32 17 x) ^^^ (rotr32 19 x) ^^^ (x >>> 10)

def bigSigma0 (x : Nat) : Nat := (rotr32 2 x) ^^^ (rotr32 13 x) ^^^ (rotr32 22 x)

def bigSigma1 (x : Nat) : Nat := (rotr32 6 x) ^^^ (rotr32 11 x) ^^^ (rotr32 25 x)

/-- The SHA-256 round constants (decimal). -/
def shaK : List Nat :=
  [1116352408, 1899447441, 3049323471, 3921009573, 961987163,
   1508970993, 2453635748, 2870763221, 3624381080, 310598401,
   607225278, 1426881987, 1925078388, 2162078206, 2614888103,
   3248222580, 3835390401, 4022224774, 264347078, 604807628,
   770255983, 1249150122, 1555081692, 1996064986, 2554220882,
   2821834349, 2952996808, 3210313671, 3336571891, 3584528711,
   113926993, 338241895, 666307205, 773529912, 1294757372,
   1396182291, 1695183700, 1986661051, 2177026350, 2456956037,
   2730485921, 2820302411, 3259730800, 3345764771, 3516065817,
   3600352804, 4094571909, 275423344, 430227734, 506948616,
   659060556, 883997877, 958139571, 1322822218, 1537002063,
   1747873779, 1955562222, 2024104815, 2227730452, 2361852424,
   2428436474, 2756734187, 3204031479, 3329325298]

/-- Group a byte list into big-endian 32-bit words (blocks are always a
multiple of four bytes, so the ragged case never arises). -/
def toWords32 : List Nat → List Nat
  | b0 :: b1 :: b2 :: b3 :: rest =>
      (((b0 * 256 + b1) * 256 + b2) * 256 + b3) :: toWords32 rest
  | _ => []

/-- Extend the 16 message words by `k` more schedule words; `acc` holds the
words seen so far, most recent first. -/
def extendSchedule : Nat → List Nat → List Nat
  | 0, acc => acc
  | k + 1, acc =>
      extendSchedule k
        (w32 (smallSigma1 (acc.getD 1 0) + acc.getD 6 0
          + smallSigma0 (acc.getD 14 0) + acc.getD 15 0) :: acc)

/-- The eight 32-bit working variables of SHA-256. -/
structure Sha256State where
  a : Nat
  b : Nat
  c : Nat
  d : Nat
  e : Nat
  f : Nat
  g : Nat
  h : Nat
deriving DecidableEq, Repr

/-- One SHA-256 round; `kw` pairs the round constant with the schedule word. -/
def shaRound (st : Sha256State) (kw : Nat × Nat) : Sha256State :=
  let ch := (st.e &&& st.f) ^^^ ((st.e ^^^ 0xffffffff) &&& st.g)
  let maj := (st.a &&& st.b) ^^^ (st.a &&& st.c) ^^^ (st.b &&& st.c)
  let t1 := w32 (st.h + bigSigma1 st.e + ch + kw.1 + kw.2)
  let t2 := w32 (bigSigma0 st.a + maj)
  ⟨w32 (t1 + t2), st.a, st.b, st.c, w32 (st.d + t1), st.e, st.f, st.g⟩

/-- Compress one 64-byte block into the running state. -/
def sha256Compress (st : Sha256State) (block : List Nat) : Sha256State :=
  let ws := (extendSchedule 48 (toWords32 block).reverse).reverse
  let r := (shaK.zip ws).foldl shaRound st
  ⟨w32 (st.a + r.a), w32 (st.b + r.b), w32 (st.c + r.c), w32 (st.d + r.d),
   w32 (st.e + r.e), w32 (st.f + r.f), w32 (st.g + r.g), w32 (st.h + r.h)⟩

/-- Split a byte list into 64-byte blocks; the fuel, instantiated with the
list length, only bounds the recursion and is never exhausted. -/
def chunks64Aux : Nat → List Nat → List (List Nat)
  | _, [] => []
  | 0, _ :: _ => []
  | fuel + 1, b :: rest => ((b :: rest).take 64) :: chunks64Aux fuel (rest.drop 63)

/-- Split a byte list into 64-byte blocks. -/
def chunks64 (bs : List Nat) : List (List Nat) := chunks64Aux bs.length bs

/-- Big-endian 8-byte encoding of a 64-bit length. -/
def be8 (n : Nat) : List Nat :=
  [(n >>> 56) % 256, (n >>> 48) % 256, (n >>> 40) % 256, (n >>> 32) % 256,
   (n >>> 24) % 256, (n >>> 16) % 256, (n >>> 8) % 256, n % 256]

/-- SHA-256 padding: `0x80`, zeros to 56 mod 64, then the bit length. -/
def sha256Pad (msg : List Nat) : List Nat :=
  msg ++ 128 :: (List.replicate ((64 - (msg.length + 9) % 64) % 64) 0 ++ be8 (8 * msg.length))

def sha256Init : Sha256State :=
  ⟨1779033703, 3144134277, 1013904242, 2773480762,
   1359893119, 2600822924, 528734635, 1541459225⟩

/-- Big-endian 4-byte encoding of a 32-bit word. -/
def wordBE4 (n : Nat) : List Nat :=
  [(n >>> 24) % 256, (n >>> 16) % 256, (n >>> 8) % 256, n % 256]

/-- SHA-256 digest of a byte list (32 bytes). -/
def sha256Bytes (msg : List Nat) : List Nat :=
  let st := (chunks64 (sha256Pad msg)).foldl sha256Compress sha256Init
  wordBE4 st.a ++ wordBE4 st.b ++ wordBE4 st.c ++ wordBE4 st.d
    ++ wordBE4 st.e ++ wordBE4 st.f ++ wordBE4 st.g ++ wordBE4 st.h

/-- HMAC key normalisation: hash keys longer than a block, pad to 64 bytes. -/
def hmacBlockKey (key : List Nat) : List Nat :=
  let k0 := if 64 < key.length then sha256Bytes key else key
  k0 ++ List.replicate (64 - k0.length) 0

/-- HMAC-SHA256 of `msg` under `key` (RFC 2104), as 32 bytes. -/
def hmacSha256 (key msg : List Nat) : List Nat :=
  let bk := hmacBlockKey key
  sha256Bytes ((bk.map (fun b => b ^^^ 92)) ++ sha256Bytes ((bk.map (fun b => b ^^^ 54)) ++ msg))

def hexDigitChars : List Char := String.data ("0123456789abcdef")

/-- Two lowercase hex digits of a byte, as Go's `%x` prints it. -/
def byteToHex (b : Nat) : List Char :=
  [hexDigitChars.getD (b / 16 % 16) '0', hexDigitChars.getD (b % 16) '0']

/-- Lowercase hex string of a byte list. -/
def hexOfBytes (bs : List Nat) : String := String.mk ((bs.map byteToHex).flatten)

/-- UTF-8 bytes of a character, as Go's `[]byte(string)` conversion. -/
def utf8Bytes (c : Char) : List Nat :=
  let n := c.toNat
  if n < 128 then [n]
  else if n < 2048 then [192 + n / 64, 128 + n % 64]
  else if n < 65536 then [224 + n / 4096, 128 + n / 64 % 64, 128 + n % 64]
  else [240 + n / 262144, 128 + n / 4096 % 64, 128 + n / 64 % 64, 128 + n % 64]

/-- UTF-8 bytes of a string. -/
def stringBytes (s : String) : List Nat := (s.data.map utf8Bytes).flatten

/-- Embeds `DigestToken` of the source: HMAC-SHA256 of the token under the
helper's `encryptionSecret`, hex encoded.  (The Go version can only fail
on an `hmac.Write` fault, which `hash.Hash` documents as impossible.) -/
def DigestToken (encryptionSecret : String) (token : String) : String :=
  hexOfBytes (hmacSha256 (stringBytes encryptionSecret) (stringBytes token))

/-! ### Data model and the persistence collaborator -/

/-- Acting caller identity (`common.User`): display name and email. -/
structure User where
  name : String
  email : String
deriving DecidableEq, Repr

/-- The persisted credential record (`models.ApiKey` as used by the helper:
`common.Model` identifier and timestamps, name, stored digest in `apiKey`,
optional expiry, allowed path pattern, type tag, extra, and
creator/updater provenance).  Timestamps are abstract `Nat` instants. -/
structure ApiKey where
  id : Nat
  createdAt : Nat
  updatedAt : Nat
  name : String
  apiKey : String
  expiredAt : Option Nat
  allowedPath : String
  type : String
  extra : String
  creator : String
  creatorEmail : String
  updater : String
  updaterEmail : String
deriving DecidableEq, Repr

/-- Modelled from the spec: error signals of the persistence collaborator
(§6): duplicate-key on create, not-found on first, and other faults. -/
inductive DalErr where
  | notFound
  | duplication
  | other (msg : String)
deriving DecidableEq, Repr

/-- Modelled from the spec: the persistence collaborator's state, a
collection of credential rows plus the auto-increment id counter that
assigns identifiers (§3: "identifier ... assigned by the persistence
layer"). -/
structure Store where
  rows : List ApiKey
  nextId : Nat
deriving DecidableEq, Repr

/-- Modelled from the spec: a `dal.Where` clause, i.e. a row predicate. -/
abbrev Clause : Type := ApiKey → Bool

/-- Modelled from the spec: persistence `Create(record) -> ok |
DuplicateKeyError` (§6); the uniqueness constraint is on `name` (§3), and
the stored row receives the next auto-increment identifier. -/
def dalCreate (s : Store) (r : ApiKey) : Except DalErr (Store × ApiKey) :=
  if s.rows.any (fun row => row.name == r.name) then .error .duplication
  else
    let stored := { r with id := s.nextId }
    .ok (⟨s.rows ++ [stored], s.nextId + 1⟩, stored)

/-- Modelled from the spec: persistence `First(record, filters...) -> ok |
NotFoundError` (§6): the first row satisfying every clause. -/
def dalFirst (s : Store) (clauses : List Clause) : Except DalErr ApiKey :=
  match s.rows.find? (fun r => clauses.all (fun c => c r)) with
  | some r => .ok r
  | none => .error .notFound

/-- Embeds `tx.IsErrorNotFound`. -/
def isErrorNotFound : DalErr → Bool
  | .notFound => true
  | _ => false

/-- Embeds `tx.IsDuplicationError`. -/
def isDuplicationError : DalErr → Bool
  | .duplication => true
  | _ => false

/-- Modelled from the spec: persistence `Update(record)` (§6), replacing
the row with the record's identifier. -/
def dalUpdate (s : Store) (r : ApiKey) : Store :=
  ⟨s.rows.map (fun row => if row.id == r.id then r else row), s.nextId⟩

/-- Modelled from the spec: persistence `Delete` by identifier (§6). -/
def dalDeleteById (s : Store) (id : Nat) : Store :=
  ⟨s.rows.filter (fun row => row.id != id), s.nextId⟩

/-- Error kinds raised by the helper, one constructor per distinct
`errors.*` call site of the source (§7 names: `InvalidPatternError`,
`RandomSourceError`, `DuplicateNameError`, `NotFoundError`,
`PersistenceError`); `dal` is a collaborator error propagated unwrapped,
as `DeleteForPlugin` does. -/
inductive ApiErr where
  | invalidPattern (allowedPath : String)
  | randomSource (msg : String)
  | duplicateName (name : String)
  | notFound (id : Nat)
  | persistence (msg : String)
  | dal (e : DalErr)
deriving DecidableEq, Repr

/-! ### The lifecycle operations of the source

Mutating operations return the resulting store together with the
operation's outcome; a returned store equal to the input means nothing was
written.  The entropy parameter is the outcome of the external
`utils.RandLetterBytes(apiKeyLen)` call; `regexpCompileOk` is the Go
`regexp.Compile` oracle; `now` is `time.Now()`; `secret` is the helper's
`encryptionSecret`. -/

/-- Length of generated api keys (`apiKeyLen` constant of the source). -/
def apiKeyLen : Nat := 128

/-- Embeds `generateApiKey`: the random token paired with its digest. -/
def generateApiKey (secret : String) (entropy : Except String String) :
    Except ApiErr (String × String) :=
  match entropy with
  | .error m => .error (.randomSource m)
  | .ok apiKey => .ok (apiKey, DigestToken secret apiKey)

/-- Embeds `Create`: validate the allowed-path pattern, generate the
secret/digest pair, persist the digest-bearing record, map a duplication
signal to the duplicate-name error, and return the stored record with the
plaintext substituted into its `apiKey` field. -/
def Create (regexpCompileOk : String → Bool) (entropy : Except String String)
    (secret : String) (now : Nat) (tx : Store) (user : Option User)
    (name : String) (expiredAt : Option Nat) (allowedPath : String)
    (apiKeyType : String) (extra : String) : Store × Except ApiErr ApiKey :=
  if !(regexpCompileOk allowedPath) then (tx, .error (.invalidPattern allowedPath))
  else
    match generateApiKey secret entropy with
    | .error e => (tx, .error e)
    | .ok (apiKey, hashedApiKey) =>
      let base : ApiKey :=
        { id := 0, createdAt := now, updatedAt := now, name := name,
          apiKey := hashedApiKey, expiredAt := expiredAt,
          allowedPath := allowedPath, type := apiKeyType, extra := extra,
          creator := "", creatorEmail := "", updater := "", updaterEmail := "" }
      let apiKeyRecord :=
        match user with
        | some u => { base with creator := u.name, creatorEmail := u.email,
                                updater := u.name, updaterEmail := u.email }
        | none => base
      match dalCreate tx apiKeyRecord with
      | .error e =>
          if isDuplicationError e then (tx, .error (.duplicateName name))
          else (tx, .error (.persistence ("error creating DB api key")))
      | .ok (tx2, stored) => (tx2, .ok { stored with apiKey := apiKey })

/-- Embeds `CreateForPlugin`, argument order exactly as in the source:
`Create(tx, user, name, nil, fmt.Sprintf("plugin:%s", pluginName),
allowedPath, extra)` — the `plugin:` tag flows into Create's
`allowedPath` parameter and `allowedPath` into its `apiKeyType`
parameter. -/
def CreateForPlugin (regexpCompileOk : String → Bool)
    (entropy : Except String String) (secret : String) (now : Nat)
    (tx : Store) (user : Option User) (name : String) (pluginName : String)
    (allowedPath : String) (extra : String) : Store × Except ApiErr ApiKey :=
  Create regexpCompileOk entropy secret now tx user name none
    ("plugin:" ++ pluginName) allowedPath extra

/-- Embeds `getApiKeyById`: first row with the identifier, not-found
wrapped as `NotFoundError`, other faults wrapped as a persistence
error. -/
def getApiKeyById (db : Store) (id : Nat) (additionalClauses : List Clause) :
    Except ApiErr ApiKey :=
  match dalFirst db ((fun r => r.id == id) :: additionalClauses) with
  | .error e =>
      if isErrorNotFound e then .error (.notFound id)
      else .error (.persistence ("error getting api key from DB"))
  | .ok r => .ok r

/-- Embeds `GetApiKey`: a bare first-match lookup whose collaborator error
is returned unwrapped. -/
def GetApiKey (db : Store) (additionalClauses : List Clause) : Except DalErr ApiKey :=
  dalFirst db additionalClauses

/-- Embeds `Put` (rotation): look up by identifier, generate a fresh
secret/digest pair, overwrite the stored digest, refresh the update
timestamp and (when an actor is present) the updater metadata, persist,
and return the record with the new plaintext substituted in. -/
def Put (entropy : Except String String) (secret : String) (now : Nat)
    (db : Store) (user : Option User) (id : Nat) : Store × Except ApiErr ApiKey :=
  match getApiKeyById db id [] with
  | .error e => (db, .error e)
  | .ok apiKey =>
    match generateApiKey secret entropy with
    | .error e => (db, .error e)
    | .ok (apiKeyStr, hashApiKey) =>
      let k1 := { apiKey with apiKey := hashApiKey, updatedAt := now }
      let k2 :=
        match user with
        | some u => { k1 with updater := u.name, updaterEmail := u.email }
        | none => k1
      (dalUpdate db k2, .ok { k2 with apiKey := apiKeyStr })

/-- Embeds `Delete`: verify existence by identifier, then delete by
identifier. -/
def Delete (db : Store) (id : Nat) : Store × Option ApiErr :=
  match getApiKeyById db id [] with
  | .error e => (db, some e)
  | .ok _ => (dalDeleteById db id, none)

/-- Clause list `DeleteForPlugin` builds: whichever of the type tag and
extra filters are non-empty. -/
def dfpClauses (pluginName : String) (extra : String) : List Clause :=
  (if pluginName != "" then [fun (r : ApiKey) => r.type == "plugin:" ++ pluginName]
   else ([] : List Clause))
    ++ (if extra != "" then [fun (r : ApiKey) => r.extra == extra]
        else ([] : List Clause))

/-- Embeds `DeleteForPlugin`: look up the first match of the built clauses
(absence is success), and delete the matched record by its identifier. -/
def DeleteForPlugin (tx : Store) (pluginName : String) (extra : String) :
    Store × Option ApiErr :=
  match dalFirst tx (dfpClauses pluginName extra) with
  | .error e =>
      if isErrorNotFound e then (tx, none) else (tx, some (.dal e))
  | .ok apiKey => (dalDeleteById tx apiKey.id, none)

/-- Auto-increment well-formedness: every stored row's identifier is below
the counter (so a freshly assigned identifier is unique). -/
def WfStore (s : Store) : Prop := ∀ r ∈ s.rows, r.id < s.nextId

/-- Identifiers are pairwise distinct in the store. -/
def IdsNodup (s : Store) : Prop := (s.rows.map ApiKey.id).Nodup

instance (s : Store) : Decidable (WfStore s) := by
  unfold WfStore; infer_instance

instance (s : Store) : Decidable (IdsNodup s) := by
  unfold IdsNodup; infer_instance

/-! ### Basic facts about the digest encoding -/

theorem sha256Bytes_length (msg : List Nat) : (sha256Bytes msg).length = 32 := by
  simp [sha256Bytes, wordBE4]

theorem hmacSha256_length (key msg : List Nat) : (hmacSha256 key msg).length = 32 := by
  unfold hmacSha256
  exact sha256Bytes_length _

theorem hexData_length (bs : List Nat) : ((bs.map byteToHex).flatten).length = 2 * bs.length := by
  induction bs with
  | nil => rfl
  | cons b t ih =>
      simp only [List.map_cons, List.flatten_cons, List.length_append, ih, byteToHex,
        List.length_cons, List.length_nil]
      omega

theorem hexOfBytes_length (bs : List Nat) : (hexOfBytes bs).length = 2 * bs.length :=
  hexData_length bs

/-- Digests are 64 hex characters: the fixed-width output of §4.2. -/
theorem DigestToken_length (secret token : String) : (DigestToken secret token).length = 64 := by
  show (hexOfBytes (hmacSha256 (stringBytes secret) (stringBytes token))).length = 64
  rw [hexOfBytes_length, hmacSha256_length]

/-! ### Finiteness of the digest range -/

theorem char_toNat_lt (c : Char) : c.toNat < 1114112 := by
  have h := c.valid
  have e : c.toNat = c.val.toNat := rfl
  rcases h with h | h
  · omega
  · omega

theorem uint32_eq_of_toNat {a b : UInt32} (h : a.toNat = b.toNat) : a = b := by
  exact UInt32.ext_iff.mpr (by exact_mod_cast h)

theorem char_toNat_injective : Function.Injective (fun c : Char => c.toNat) := by
  intro a b h
  exact Char.ext (uint32_eq_of_toNat h)

instance : Finite Char := by
  apply Finite.of_injective (fun c : Char => (⟨c.toNat, char_toNat_lt c⟩ : Fin 1114112))
  intro a b h
  apply char_toNat_injective
  simpa using congrArg Fin.val h

theorem string_eq_of_data {s t : String} (h : s.data = t.data) : s = t := by
  cases s; cases t; simp_all

/-- Secrets of pairwise distinct lengths, used to exhibit that infinitely
many server secrets share finitely many possible digests. -/
def secretOfNat (n : Nat) : String := String.mk (List.replicate n 'a')

theorem secretOfNat_injective : Function.Injective secretOfNat := by
  intro m n h
  have hl : (secretOfNat m).length = (secretOfNat n).length := by rw [h]
  simpa [secretOfNat, String.length] using hl

/-! ### The success path of Create, in normal form -/

/-- The record `Create` persists on its success path (digest stored,
provenance stamped from the actor when present), with identifier `nid`. -/
def createdRecord (secret : String) (now nid : Nat) (user : Option User)
    (name : String) (expiredAt : Option Nat)
    (allowedPath apiKeyType extra tok : String) : ApiKey :=
  let base : ApiKey :=
    { id := nid, createdAt := now, updatedAt := now, name := name,
      apiKey := DigestToken secret tok, expiredAt := expiredAt,
      allowedPath := allowedPath, type := apiKeyType, extra := extra,
      creator := "", creatorEmail := "", updater := "", updaterEmail := "" }
  match user with
  | some u => { base with creator := u.name, creatorEmail := u.email,
                          updater := u.name, updaterEmail := u.email }
  | none => base

theorem createdRecord_id (secret : String) (now nid : Nat) (user : Option User)
    (name : String) (expiredAt : Option Nat) (allowedPath apiKeyType extra tok : String) :
    (createdRecord secret now nid user name expiredAt allowedPath apiKeyType extra tok).id
      = nid := by
  cases user <;> rfl

theorem createdRecord_apiKey (secret : String) (now nid : Nat) (user : Option User)
    (name : String) (expiredAt : Option Nat) (allowedPath apiKeyType extra tok : String) :
    (createdRecord secret now nid user name expiredAt allowedPath apiKeyType extra tok).apiKey
      = DigestToken secret tok := by
  cases user <;> rfl

theorem createdRecord_name (secret : String) (now nid : Nat) (user : Option User)
    (name : String) (expiredAt : Option Nat) (allowedPath apiKeyType extra tok : String) :
    (createdRecord secret now nid user name expiredAt allowedPath apiKeyType extra tok).name
      = name := by
  cases user <;> rfl

/-- Success equation of `Create`: with a compilable pattern and a fresh
name, the digest-bearing record is appended under the next identifier and
returned with the plaintext substituted in. -/
theorem Create_ok_eq (regexpCompileOk : String → Bool) (secret : String)
    (now : Nat) (tx : Store) (user : Option User) (name : String)
    (expiredAt : Option Nat) (allowedPath apiKeyType extra tok : String)
    (hpath : regexpCompileOk allowedPath = true)
    (hfresh : ∀ r ∈ tx.rows, r.name ≠ name) :
    Create regexpCompileOk (.ok tok) secret now tx user name expiredAt
        allowedPath apiKeyType extra
      = (⟨tx.rows
            ++ [createdRecord secret now tx.nextId user name expiredAt
                  allowedPath apiKeyType extra tok],
          tx.nextId + 1⟩,
         .ok ({ createdRecord secret now tx.nextId user name expiredAt
                  allowedPath apiKeyType extra tok with apiKey := tok })) := by
  have hany : tx.rows.any (fun row => row.name == name) = false := by
    rw [List.any_eq_false]
    intro x hx
    simpa using hfresh x hx
  cases user with
  | none => simp [Create, generateApiKey, dalCreate, hpath, hany, createdRecord]
  | some u => simp [Create, generateApiKey, dalCreate, hpath, hany, createdRecord]

/-- Failure equation of `Create` on a name the store already holds: the
duplication signal is mapped to the duplicate-name error and the store is
returned untouched. -/
theorem Create_dup_eq (regexpCompileOk : String → Bool) (secret : String)
    (now : Nat) (tx : Store) (user : Option User) (name : String)
    (expiredAt : Option Nat) (allowedPath apiKeyType extra tok : String)
    (hpath : regexpCompileOk allowedPath = true)
    (hdup : tx.rows.any (fun row => row.name == name) = true) :
    Create regexpCompileOk (.ok tok) secret now tx user name expiredAt
        allowedPath apiKeyType extra
      = (tx, .error (.duplicateName name)) := by
  cases user with
  | none => simp [Create, generateApiKey, dalCreate, hpath, hdup, isDuplicationError]
  | some u => simp [Create, generateApiKey, dalCreate, hpath, hdup, isDuplicationError]

/-! ### Claims -/

/-- C1: evaluating `CreateForPlugin` at a concrete input shows the
`plugin:` tag landing in the record's allowed-path field and the supplied
allowed path in its type field, both in the persisted row and in the
returned record — the last two arguments of the delegated `Create` call
are swapped, contradicting the claim (and `DeleteForPlugin`, which
filters on `type = plugin:<name>`). -/
theorem createForPlugin_swaps_type_and_path :
    ((CreateForPlugin (fun _ => true) (.ok ("tok")) ("sec") 12 ⟨[], 1⟩ none
        ("wk") ("webhook") ("/api/.*") ("x7")).1.rows.map
          (fun r => (r.type, r.allowedPath)) = [("/api/.*", "plugin:webhook")])
    ∧ ((CreateForPlugin (fun _ => true) (.ok ("tok")) ("sec") 12 ⟨[], 1⟩ none
        ("wk") ("webhook") ("/api/.*") ("x7")).2.map
          (fun r => (r.type, r.allowedPath)) = .ok ("/api/.*", "plugin:webhook")) := by
  constructor
  · rfl
  · rfl

/-- C3 counterexample: it is not true that every pair of distinct server
secrets yields distinct digests for the same token — infinitely many
secrets map into the finitely many 64-character digests, so some two
distinct secrets collide (no explicit collision is computable, but the
universally quantified claim is refuted). -/
theorem digestToken_not_injective_in_secret :
    ¬ (∀ s1 s2 x : String, s1 ≠ s2 → DigestToken s1 x ≠ DigestToken s2 x) := by
  intro hclaim
  obtain ⟨m, n, hmn, hf⟩ :=
    Finite.exists_ne_map_eq_of_infinite
      (fun (k : Nat) (i : Fin 64) =>
        (DigestToken (secretOfNat k) ("x")).data.getD i.val 'a')
  apply hclaim (secretOfNat m) (secretOfNat n) ("x")
      (fun he => hmn (secretOfNat_injective he))
  apply string_eq_of_data
  have hlm : (DigestToken (secretOfNat m) ("x")).data.length = 64 :=
    DigestToken_length (secretOfNat m) ("x")
  have hln : (DigestToken (secretOfNat n) ("x")).data.length = 64 :=
    DigestToken_length (secretOfNat n) ("x")
  apply List.ext_getElem
  · rw [hlm, hln]
  · intro i h1 h2
    have h64 : i < 64 := by rw [hlm] at h1; exact h1
    have hgd : (DigestToken (secretOfNat m) ("x")).data.getD i 'a'
        = (DigestToken (secretOfNat n) ("x")).data.getD i 'a' :=
      congrFun hf ⟨i, h64⟩
    rw [List.getD_eq_getElem _ _ h1, List.getD_eq_getElem _ _ h2] at hgd
    exact hgd

/-- C3 (amended): `DigestToken` is deterministic — equal secret and token
always give the same digest string — and it is keyed: distinct server
secrets give distinct digests for the same token generically (witnessed
here at concrete distinct secrets), though not for every pair, since a
64-character digest cannot separate all secrets. -/
theorem digestToken_deterministic_and_keyed :
    (∀ secret x : String, DigestToken secret x = DigestToken secret x)
    ∧ DigestToken ("secret-one") ("x") ≠ DigestToken ("secret-two") ("x") := by
  constructor
  · intro secret x
    rfl
  · decide

/-- A 128-letter token, the shape `utils.RandLetterBytes(apiKeyLen)`
produces. -/
def tok128 : String := String.mk (List.replicate 128 'a')

/-- C2: on any valid input (compilable pattern, fresh name, a token of the
generator's length), a successful `Create` followed by a lookup of the new
record's identifier returns a stored record whose digest field is
`DigestToken` of the plaintext that `Create` returned, and that plaintext
differs from the stored digest. -/
theorem create_then_lookup_digest (regexpCompileOk : String → Bool)
    (secret : String) (now : Nat) (tx : Store) (user : Option User)
    (name : String) (expiredAt : Option Nat)
    (allowedPath apiKeyType extra tok : String)
    (hwf : WfStore tx)
    (hpath : regexpCompileOk allowedPath = true)
    (hfresh : ∀ r ∈ tx.rows, r.name ≠ name)
    (htok : tok.length = apiKeyLen) :
    ∃ tx2 ret stored,
      Create regexpCompileOk (.ok tok) secret now tx user name expiredAt
          allowedPath apiKeyType extra = (tx2, .ok ret)
      ∧ getApiKeyById tx2 ret.id [] = .ok stored
      ∧ stored.apiKey = DigestToken secret ret.apiKey
      ∧ ret.apiKey ≠ stored.apiKey := by
  set stored := createdRecord secret now tx.nextId user name expiredAt
    allowedPath apiKeyType extra tok with hstored
  refine ⟨_, { stored with apiKey := tok }, stored,
    Create_ok_eq regexpCompileOk secret now tx user name expiredAt
      allowedPath apiKeyType extra tok hpath hfresh, ?_, ?_, ?_⟩
  · have hid : ({ stored with apiKey := tok } : ApiKey).id = tx.nextId := by
      rw [hstored]
      show (createdRecord secret now tx.nextId user name expiredAt
        allowedPath apiKeyType extra tok).id = tx.nextId
      exact createdRecord_id ..
    rw [hid]
    unfold getApiKeyById dalFirst
    have hnone : tx.rows.find?
        (fun r => (((fun (r : ApiKey) => r.id == tx.nextId) :: ([] : List Clause))).all
          (fun c => c r)) = none := by
      rw [List.find?_eq_none]
      intro x hx
      have := hwf x hx
      simp only [List.all_cons, List.all_nil, Bool.and_true]
      simp only [beq_iff_eq]
      omega
    rw [List.find?_append, hnone, Option.none_or]
    have hyes : ([stored].find?
        (fun r => (((fun (r : ApiKey) => r.id == tx.nextId) :: ([] : List Clause))).all
          (fun c => c r))) = some stored := by
      apply List.find?_cons_of_pos
      simp only [List.all_cons, List.all_nil, Bool.and_true]
      simp only [beq_iff_eq]
      rw [hstored]
      exact createdRecord_id ..
    rw [hyes]
  · have h1 : stored.apiKey = DigestToken secret tok := by
      rw [hstored]; exact createdRecord_apiKey ..
    have h2 : ({ stored with apiKey := tok } : ApiKey).apiKey = tok := rfl
    rw [h1, h2]
  · have h1 : stored.apiKey = DigestToken secret tok := by
      rw [hstored]; exact createdRecord_apiKey ..
    have h2 : ({ stored with apiKey := tok } : ApiKey).apiKey = tok := rfl
    rw [h1, h2]
    intro h
    have hlen := congrArg String.length h
    rw [DigestToken_length, htok] at hlen
    exact absurd hlen (by decide)

theorem create_then_lookup_digest_w :
    ∃ tx2 ret stored,
      Create (fun _ => true) (.ok tok128) ("sec") 0 ⟨[], 1⟩ none ("k") none
          (".*") ("user") ("") = (tx2, .ok ret)
      ∧ getApiKeyById tx2 ret.id [] = .ok stored
      ∧ stored.apiKey = DigestToken ("sec") ret.apiKey
      ∧ ret.apiKey ≠ stored.apiKey :=
  create_then_lookup_digest (fun _ => true) ("sec") 0 ⟨[], 1⟩ none ("k") none
    (".*") ("user") ("") tok128 (by decide) rfl (by decide) (by decide)

/-- C5: creating twice under the same name succeeds the first time and
fails the second time with the duplicate-name error carrying the name,
the persistence layer's uniqueness violation mapped to a client error;
the second call writes nothing. -/
theorem create_duplicate_name (rc1 rc2 : String → Bool)
    (secret1 secret2 : String) (now1 now2 : Nat) (tx : Store)
    (user1 user2 : Option User) (name : String) (e1 e2 : Option Nat)
    (p1 p2 t1 t2 x1 x2 tok1 tok2 : String)
    (hp1 : rc1 p1 = true) (hp2 : rc2 p2 = true)
    (hfresh : ∀ r ∈ tx.rows, r.name ≠ name) :
    ∃ tx1 ret1,
      Create rc1 (.ok tok1) secret1 now1 tx user1 name e1 p1 t1 x1 = (tx1, .ok ret1)
      ∧ Create rc2 (.ok tok2) secret2 now2 tx1 user2 name e2 p2 t2 x2
          = (tx1, .error (.duplicateName name)) := by
  refine ⟨_, _, Create_ok_eq rc1 secret1 now1 tx user1 name e1 p1 t1 x1 tok1 hp1 hfresh, ?_⟩
  apply Create_dup_eq
  · exact hp2
  · rw [List.any_eq_true]
    refine ⟨createdRecord secret1 now1 tx.nextId user1 name e1 p1 t1 x1 tok1, by simp, ?_⟩
    simp [createdRecord_name]

theorem create_duplicate_name_w :
    ∃ tx1 ret1,
      Create (fun _ => true) (.ok ("t1")) ("s1") 0 ⟨[], 1⟩ none ("k") none
          (".*") ("user") ("") = (tx1, .ok ret1)
      ∧ Create (fun _ => true) (.ok ("t2")) ("s2") 1 tx1 none ("k") none
          (".+") ("user") ("") = (tx1, .error (.duplicateName ("k"))) :=
  create_duplicate_name (fun _ => true) (fun _ => true) ("s1") ("s2") 0 1
    ⟨[], 1⟩ none none ("k") none none (".*") (".+") ("user") ("user") ("") ("")
    ("t1") ("t2") rfl rfl (by decide)

/-- C4: `Create` with an allowed path the regexp engine rejects fails with
the invalid-pattern error and returns the store untouched — the failure
happens before anything reaches the persistence collaborator. -/
theorem create_bad_pattern_writes_nothing
    (regexpCompileOk : String → Bool) (entropy : Except String String)
    (secret : String) (now : Nat) (tx : Store) (user : Option User)
    (name : String) (expiredAt : Option Nat) (allowedPath : String)
    (apiKeyType : String) (extra : String)
    (h : regexpCompileOk allowedPath = false) :
    Create regexpCompileOk entropy secret now tx user name expiredAt allowedPath
        apiKeyType extra
      = (tx, .error (.invalidPattern allowedPath)) := by
  simp [Create, h]

theorem create_bad_pattern_writes_nothing_w :
    Create (fun _ => false) (.ok ("t")) ("sec") 0 ⟨[], 1⟩ none ("k") none ("(")
        ("user") ("")
      = (⟨[], 1⟩, .error (.invalidPattern ("("))) :=
  create_bad_pattern_writes_nothing (fun _ => false) (.ok ("t")) ("sec") 0 ⟨[], 1⟩
    none ("k") none ("(") ("user") ("") rfl

/-- C7: the read-only accessors return either a record that is literally
one of the stored rows (its real digest, never a plaintext), or the
not-found error, or a persistence error (`getApiKeyById` wraps it, and
`GetApiKey` propagates the collaborator's fault unwrapped). -/
theorem lookups_return_stored_or_not_found (s : Store) (id : Nat)
    (clauses : List Clause) :
    ((∃ r, getApiKeyById s id clauses = .ok r ∧ r ∈ s.rows)
      ∨ getApiKeyById s id clauses = .error (.notFound id)
      ∨ (∃ m, getApiKeyById s id clauses = .error (.persistence m)))
    ∧ ((∃ r, GetApiKey s clauses = .ok r ∧ r ∈ s.rows)
      ∨ GetApiKey s clauses = .error .notFound
      ∨ (∃ m, GetApiKey s clauses = .error (.other m))) := by
  constructor
  · unfold getApiKeyById dalFirst
    cases hf : s.rows.find?
        (fun r => (((fun (r : ApiKey) => r.id == id) :: clauses)).all (fun c => c r)) with
    | none => right; left; rfl
    | some r =>
        left
        exact ⟨r, rfl, List.mem_of_find?_eq_some hf⟩
  · unfold GetApiKey dalFirst
    cases hf : s.rows.find? (fun r => clauses.all (fun c => c r)) with
    | none => right; left; rfl
    | some r =>
        left
        exact ⟨r, rfl, List.mem_of_find?_eq_some hf⟩

/-- C8: deleting an identifier that matches no stored row fails with the
not-found error and returns the store untouched — no delete reaches the
persistence collaborator. -/
theorem delete_missing_not_found (s : Store) (id : Nat)
    (h : ∀ r ∈ s.rows, r.id ≠ id) :
    Delete s id = (s, some (.notFound id)) := by
  have hf : s.rows.find?
      (fun r => (((fun (r : ApiKey) => r.id == id) :: ([] : List Clause))).all
        (fun c => c r)) = none := by
    rw [List.find?_eq_none]
    intro x hx
    simp only [List.all_cons, List.all_nil, Bool.and_true]
    simpa using h x hx
  unfold Delete getApiKeyById dalFirst
  rw [hf]
  rfl

theorem delete_missing_not_found_w :
    Delete ⟨[], 1⟩ 7 = (⟨[], 1⟩, some (.notFound 7)) :=
  delete_missing_not_found ⟨[], 1⟩ 7 (by decide)

def c6row : ApiKey :=
  { id := 1, createdAt := 0, updatedAt := 0, name := "k",
    apiKey := DigestToken ("sec") tok128, expiredAt := none,
    allowedPath := ".*", type := "user", extra := "",
    creator := "", creatorEmail := "", updater := "", updaterEmail := "" }

/-- C6 counterexample: when the entropy source hands `Put` a token whose
digest equals the digest already stored (here: the very token that
produced it), the rotation succeeds but the stored digest is unchanged —
the new stored digest is not distinct from the old one, so distinctness
does not hold unconditionally. -/
theorem put_digest_not_always_fresh :
    Put (.ok tok128) ("sec") 5 ⟨[c6row], 2⟩ none 1
      = (⟨[{ c6row with updatedAt := 5 }], 2⟩,
         .ok ({ c6row with apiKey := tok128, updatedAt := 5 }))
    ∧ ({ c6row with updatedAt := 5 } : ApiKey).apiKey = c6row.apiKey :=
  ⟨rfl, rfl⟩

/-- The record `Put` persists on its success path: digest overwritten,
update timestamp refreshed, updater stamped from the actor when
present. -/
def rotatedRecord (secret : String) (now : Nat) (user : Option User)
    (r0 : ApiKey) (tok : String) : ApiKey :=
  match user with
  | some u =>
      { r0 with apiKey := DigestToken secret tok, updatedAt := now, updater := u.name, updaterEmail := u.email }
  | none => { r0 with apiKey := DigestToken secret tok, updatedAt := now }

theorem rotatedRecord_id (secret : String) (now : Nat) (user : Option User)
    (r0 : ApiKey) (tok : String) :
    (rotatedRecord secret now user r0 tok).id = r0.id := by
  cases user <;> rfl

theorem rotatedRecord_apiKey (secret : String) (now : Nat) (user : Option User)
    (r0 : ApiKey) (tok : String) :
    (rotatedRecord secret now user r0 tok).apiKey = DigestToken secret tok := by
  cases user <;> rfl

theorem rotatedRecord_updatedAt (secret : String) (now : Nat) (user : Option User)
    (r0 : ApiKey) (tok : String) :
    (rotatedRecord secret now user r0 tok).updatedAt = now := by
  cases user <;> rfl

theorem rotatedRecord_updater (secret : String) (now : Nat) (user : Option User)
    (r0 : ApiKey) (tok : String) (u : User) (hu : user = some u) :
    (rotatedRecord secret now user r0 tok).updater = u.name
      ∧ (rotatedRecord secret now user r0 tok).updaterEmail = u.email := by
  subst hu
  exact ⟨rfl, rfl⟩

/-- Rows whose identifier differs from the updated record's survive a
`dalUpdate` unchanged. -/
theorem dalUpdate_mem_of_ne (s : Store) (k : ApiKey) (r : ApiKey)
    (hr : r ∈ s.rows) (hne : r.id ≠ k.id) : r ∈ (dalUpdate s k).rows := by
  have himg : (if r.id == k.id then k else r)
      ∈ s.rows.map (fun row => if row.id == k.id then k else row) :=
    List.mem_map_of_mem _ hr
  rw [if_neg (by simpa using hne)] at himg
  exact himg

/-- The updated record is present after a `dalUpdate` whenever some stored
row carries its identifier. -/
theorem dalUpdate_mem_self (s : Store) (k : ApiKey) (r0 : ApiKey)
    (hr : r0 ∈ s.rows) (hid : r0.id = k.id) : k ∈ (dalUpdate s k).rows := by
  have himg : (if r0.id == k.id then k else r0)
      ∈ s.rows.map (fun row => if row.id == k.id then k else row) :=
    List.mem_map_of_mem _ hr
  rw [if_pos (by simpa using hid)] at himg
  exact himg

/-- C6 (amended): `Put` fails with the not-found error when no row carries
the identifier; when the lookup finds a row, and the fresh token's digest
differs from the stored one (true for all but the negligible digest
collisions of the entropy source), the rotation overwrites exactly that
row's digest with the fresh digest, refreshes the update timestamp and —
when an actor is present — the updater metadata, leaves other rows
untouched, and returns the record with a plaintext whose digest is the
newly stored digest. -/
theorem put_rotates_fresh_digest :
    (∀ (entropy : Except String String) (secret : String) (now : Nat)
        (s : Store) (user : Option User) (id : Nat),
        (∀ r ∈ s.rows, r.id ≠ id) →
        Put entropy secret now s user id = (s, .error (.notFound id)))
    ∧ (∀ (secret : String) (now : Nat) (s : Store) (user : Option User)
        (id : Nat) (tok : String) (r0 : ApiKey),
        getApiKeyById s id [] = .ok r0 →
        DigestToken secret tok ≠ r0.apiKey →
        ∃ s2 ret,
          Put (.ok tok) secret now s user id = (s2, .ok ret)
          ∧ s2.nextId = s.nextId
          ∧ (∀ r ∈ s.rows, r.id ≠ r0.id → r ∈ s2.rows)
          ∧ (∃ r2 ∈ s2.rows, r2.id = r0.id
              ∧ r2.apiKey = DigestToken secret tok
              ∧ r2.apiKey ≠ r0.apiKey
              ∧ r2.updatedAt = now
              ∧ (∀ u, user = some u → r2.updater = u.name ∧ r2.updaterEmail = u.email)
              ∧ ret.apiKey = tok
              ∧ DigestToken secret ret.apiKey = r2.apiKey)) := by
  constructor
  · intro entropy secret now s user id h
    have hf : s.rows.find?
        (fun r => (((fun (r : ApiKey) => r.id == id) :: ([] : List Clause))).all
          (fun c => c r)) = none := by
      rw [List.find?_eq_none]
      intro x hx
      simp only [List.all_cons, List.all_nil, Bool.and_true]
      simpa using h x hx
    unfold Put getApiKeyById dalFirst
    rw [hf]
    rfl
  · intro secret now s user id tok r0 hr0 hdist
    have hfind : s.rows.find?
        (fun r => (((fun (r : ApiKey) => r.id == id) :: ([] : List Clause))).all
          (fun c => c r)) = some r0 := by
      unfold getApiKeyById dalFirst at hr0
      cases hf : s.rows.find?
          (fun r => (((fun (r : ApiKey) => r.id == id) :: ([] : List Clause))).all
            (fun c => c r)) with
      | none => rw [hf] at hr0; exact absurd hr0 (by simp [isErrorNotFound])
      | some b =>
          rw [hf] at hr0
          have hb : b = r0 := by simpa using hr0
          rw [hb]
    have hmem : r0 ∈ s.rows := List.mem_of_find?_eq_some hfind
    refine ⟨dalUpdate s (rotatedRecord secret now user r0 tok),
      { rotatedRecord secret now user r0 tok with apiKey := tok }, ?_, rfl, ?_, ?_⟩
    · unfold Put
      rw [hr0]
      cases user <;> rfl
    · intro r hr hrid
      apply dalUpdate_mem_of_ne _ _ _ hr
      rw [rotatedRecord_id]
      exact hrid
    · refine ⟨rotatedRecord secret now user r0 tok,
        dalUpdate_mem_self _ _ r0 hmem (rotatedRecord_id ..).symm,
        rotatedRecord_id .., rotatedRecord_apiKey .., ?_,
        rotatedRecord_updatedAt .., ?_, rfl, ?_⟩
      · rw [rotatedRecord_apiKey]
        exact hdist
      · intro u hu
        exact rotatedRecord_updater secret now user r0 tok u hu
      · show DigestToken secret
            ({ rotatedRecord secret now user r0 tok with apiKey := tok } : ApiKey).apiKey
          = (rotatedRecord secret now user r0 tok).apiKey
        rw [rotatedRecord_apiKey]

def c6brow : ApiKey :=
  { id := 1, createdAt := 0, updatedAt := 0, name := "k", apiKey := "old",
    expiredAt := none, allowedPath := ".*", type := "user", extra := "",
    creator := "", creatorEmail := "", updater := "", updaterEmail := "" }

theorem put_rotates_fresh_digest_w :
    (Put (.ok ("t")) ("s") 0 ⟨[], 1⟩ none 9 = (⟨[], 1⟩, .error (.notFound 9)))
    ∧ (∃ s2 ret,
        Put (.ok tok128) ("s") 7 ⟨[c6brow], 2⟩ (some ⟨"bob", "b@x"⟩) 1 = (s2, .ok ret)
        ∧ s2.nextId = (⟨[c6brow], 2⟩ : Store).nextId
        ∧ (∀ r ∈ (⟨[c6brow], 2⟩ : Store).rows, r.id ≠ c6brow.id → r ∈ s2.rows)
        ∧ (∃ r2 ∈ s2.rows, r2.id = c6brow.id
            ∧ r2.apiKey = DigestToken ("s") tok128
            ∧ r2.apiKey ≠ c6brow.apiKey
            ∧ r2.updatedAt = 7
            ∧ (∀ u, (some (⟨"bob", "b@x"⟩ : User)) = some u →
                r2.updater = u.name ∧ r2.updaterEmail = u.email)
            ∧ ret.apiKey = tok128
            ∧ DigestToken ("s") ret.apiKey = r2.apiKey)) :=
  ⟨put_rotates_fresh_digest.1 (.ok ("t")) ("s") 0 ⟨[], 1⟩ none 9 (by decide),
   put_rotates_fresh_digest.2 ("s") 7 ⟨[c6brow], 2⟩ (some ⟨"bob", "b@x"⟩) 1
     tok128 c6brow rfl
     (by
       intro h
       have hl := congrArg String.length h
       rw [DigestToken_length] at hl
       exact absurd hl (by decide))⟩

/-- C9: with a non-empty filter combination, `DeleteForPlugin` succeeds
with the store unchanged when nothing matches, and when rows match it
deletes exactly the first match: the matched row disappears, every other
row survives, nothing new appears, and the identifier counter is kept. -/
theorem deleteForPlugin_deletes_first_match (s : Store)
    (pluginName extra : String) (hne : pluginName ≠ "" ∨ extra ≠ "") :
    ((∀ r ∈ s.rows, ¬ ((dfpClauses pluginName extra).all (fun c => c r) = true)) →
        DeleteForPlugin s pluginName extra = (s, none))
    ∧ (∀ k, IdsNodup s →
        s.rows.find? (fun r => (dfpClauses pluginName extra).all (fun c => c r)) = some k →
        ∃ s2, DeleteForPlugin s pluginName extra = (s2, none)
          ∧ k ∈ s.rows ∧ k ∉ s2.rows
          ∧ (∀ r ∈ s.rows, r ≠ k → r ∈ s2.rows)
          ∧ (∀ r ∈ s2.rows, r ∈ s.rows)
          ∧ s2.nextId = s.nextId) := by
  constructor
  · intro hnone
    have hf : s.rows.find?
        (fun r => (dfpClauses pluginName extra).all (fun c => c r)) = none :=
      List.find?_eq_none.mpr hnone
    unfold DeleteForPlugin dalFirst
    rw [hf]
    rfl
  · intro k hnodup hfind
    refine ⟨dalDeleteById s k.id, ?_, List.mem_of_find?_eq_some hfind, ?_, ?_, ?_, rfl⟩
    · unfold DeleteForPlugin dalFirst
      rw [hfind]
    · simp [dalDeleteById, List.mem_filter]
    · intro r hr hrk
      have hid : r.id ≠ k.id := by
        intro hid
        exact hrk (List.inj_on_of_nodup_map hnodup hr
          (List.mem_of_find?_eq_some hfind) hid)
      simp only [dalDeleteById, List.mem_filter]
      exact ⟨hr, by simpa [bne_iff_ne] using hid⟩
    · intro r hr
      have hrf : r ∈ s.rows.filter (fun row => row.id != k.id) := hr
      exact (List.mem_filter.mp hrf).1

def c9rowA : ApiKey :=
  { id := 1, createdAt := 0, updatedAt := 0, name := "a", apiKey := "d1",
    expiredAt := none, allowedPath := ".*", type := "plugin:webhook",
    extra := "e1", creator := "", creatorEmail := "", updater := "",
    updaterEmail := "" }

def c9rowB : ApiKey :=
  { id := 2, createdAt := 0, updatedAt := 0, name := "b", apiKey := "d2",
    expiredAt := none, allowedPath := ".*", type := "plugin:webhook",
    extra := "e1", creator := "", creatorEmail := "", updater := "",
    updaterEmail := "" }

def c9store : Store := ⟨[c9rowA, c9rowB], 3⟩

theorem deleteForPlugin_deletes_first_match_w :
    (DeleteForPlugin c9store ("nope") ("") = (c9store, none))
    ∧ (∃ s2, DeleteForPlugin c9store ("webhook") ("") = (s2, none)
        ∧ c9rowA ∈ c9store.rows ∧ c9rowA ∉ s2.rows
        ∧ (∀ r ∈ c9store.rows, r ≠ c9rowA → r ∈ s2.rows)
        ∧ (∀ r ∈ s2.rows, r ∈ c9store.rows)
        ∧ s2.nextId = c9store.nextId) :=
  ⟨(deleteForPlugin_deletes_first_match c9store ("nope") ("")
      (.inl (by decide))).1 (by decide),
   (deleteForPlugin_deletes_first_match c9store ("webhook") ("")
      (.inl (by decide))).2 c9rowA (by decide) (by decide)⟩

/-- C10: with both filters empty the clause list is empty, so on a
non-empty store `DeleteForPlugin` deletes the first record of the whole
collection rather than acting as a no-op: the first row disappears and
every other row survives. -/
theorem deleteForPlugin_empty_filters_deletes_head (s : Store) (k : ApiKey)
    (rest : List ApiKey) (hrows : s.rows = k :: rest) (hnodup : IdsNodup s) :
    ∃ s2, DeleteForPlugin s ("") ("") = (s2, none)
      ∧ k ∈ s.rows ∧ k ∉ s2.rows
      ∧ (∀ r ∈ s.rows, r ≠ k → r ∈ s2.rows) := by
  have hk : k ∈ s.rows := by rw [hrows]; exact List.mem_cons_self k rest
  have hfind : s.rows.find?
      (fun r => (dfpClauses ("") ("")).all (fun c => c r)) = some k := by
    rw [hrows]
    exact List.find?_cons_of_pos rest rfl
  refine ⟨dalDeleteById s k.id, ?_, hk, ?_, ?_⟩
  · unfold DeleteForPlugin dalFirst
    rw [hfind]
  · simp [dalDeleteById, List.mem_filter]
  · intro r hr hrk
    have hid : r.id ≠ k.id := by
      intro hid
      exact hrk (List.inj_on_of_nodup_map hnodup hr hk hid)
    simp only [dalDeleteById, List.mem_filter]
    exact ⟨hr, by simpa [bne_iff_ne] using hid⟩

def c10rowA : ApiKey :=
  { id := 1, createdAt := 0, updatedAt := 0, name := "a", apiKey := "d1",
    expiredAt := none, allowedPath := ".*", type := "user", extra := "x",
    creator := "", creatorEmail := "", updater := "", updaterEmail := "" }

def c10rowB : ApiKey :=
  { id := 2, createdAt := 0, updatedAt := 0, name := "b", apiKey := "d2",
    expiredAt := none, allowedPath := ".*", type := "plugin:w", extra := "y",
    creator := "", creatorEmail := "", updater := "", updaterEmail := "" }

theorem deleteForPlugin_empty_filters_deletes_head_w :
    ∃ s2, DeleteForPlugin ⟨[c10rowA, c10rowB], 3⟩ ("") ("") = (s2, none)
      ∧ c10rowA ∈ (⟨[c10rowA, c10rowB], 3⟩ : Store).rows ∧ c10rowA ∉ s2.rows
      ∧ (∀ r ∈ (⟨[c10rowA, c10rowB], 3⟩ : Store).rows, r ≠ c10rowA → r ∈ s2.rows) :=
  deleteForPlugin_empty_filters_deletes_head ⟨[c10rowA, c10rowB], 3⟩ c10rowA
    [c10rowB] rfl (by decide)

end ApiKeyHelper
